import Mathlib

/-!
Shallow embedding of the tunnel connection core in
`src/uds/uds/tunnel/Connection.cpp` (userspace TCP relay).

Machine integers are modelled as `Int`/`Nat` with explicit wrapping:
`i64`/`i32` reinterpret a mathematical integer as a two's-complement
signed 64-bit or 32-bit value, `u64`/`u32` extract the unsigned bit pattern.
The C `Int64` bitwise operators are modelled by transporting both
operands to their 64-bit unsigned patterns, applying the `Nat` bitwise
operator, and reinterpreting (this agrees with two's-complement
hardware behaviour, including the wrap-around that C leaves undefined
on signed overflow but that the shipped binaries exhibit).
-/

/-- Two's-complement reinterpretation of an integer as a signed 64-bit value. -/
def i64 (x : Int) : Int := (x + 2 ^ 63) % 2 ^ 64 - 2 ^ 63

/-- Two's-complement reinterpretation of an integer as a signed 32-bit value
(the C cast `(int)` applied to an `Int64`). -/
def i32 (x : Int) : Int := (x + 2 ^ 31) % 2 ^ 32 - 2 ^ 31

/-- Unsigned 64-bit pattern of an integer. -/
def u64 (x : Int) : Nat := (x % 2 ^ 64).toNat

/-- Unsigned 32-bit pattern of an integer (what `%X` prints for an `int`). -/
def u32 (x : Int) : Nat := (x % 2 ^ 32).toNat

/-- 64-bit `^` on signed values, via the unsigned bit patterns. -/
def xor64 (a b : Int) : Int := i64 ((u64 a) ^^^ (u64 b) : Nat)

/-- 64-bit `|` on signed values, via the unsigned bit patterns. -/
def or64 (a b : Int) : Int := i64 ((u64 a) ||| (u64 b) : Nat)

/-- 64-bit `<<` with two's-complement wrap-around. -/
def shl64 (a : Int) (n : Nat) : Int := i64 (a * 2 ^ n)

/-- 64-bit arithmetic `>>` (floor division by a power of two). -/
def sar64 (a : Int) (n : Nat) : Int := Int.fdiv (i64 a) (2 ^ n)

/-- Value of an ASCII byte as a hexadecimal digit, if it is one
(`0`-`9`, `A`-`F`, `a`-`f`). -/
def hexVal (c : Nat) : Option Nat :=
  if 48 ≤ c ∧ c ≤ 57 then some (c - 48)
  else if 65 ≤ c ∧ c ≤ 70 then some (c - 55)
  else if 97 ≤ c ∧ c ≤ 102 then some (c - 87)
  else none

/-- Accumulating base-16 digit scan: consumes the maximal hex-digit prefix. -/
def parseHexAux : List Nat → Nat → Nat
  | [], acc => acc
  | c :: cs, acc =>
    match hexVal c with
    | some d => parseHexAux cs (16 * acc + d)
    | none => acc

/-- C locale `isspace`: space and the control characters 9-13. -/
def isSpaceC (c : Nat) : Bool := c == 32 || (9 ≤ c && c ≤ 13)

/-- Digit part of `strtoll(_, NULL, 16)`: an optional `0x`/`0X` prefix
(consumed only when followed by a hex digit, as in glibc) and then the
maximal run of hex digits. -/
def hexBody (cs : List Nat) : Nat :=
  match cs with
  | c :: x :: rest =>
    if c = 48 ∧ (x = 120 ∨ x = 88) ∧ (rest.head?.bind hexVal).isSome
    then parseHexAux rest 0
    else parseHexAux cs 0
  | _ => parseHexAux cs 0

/-- Sign handling of `strtoll`: an optional leading `+` or `-` before
the hex body. -/
def strtollBody : List Nat → Int
  | [] => 0
  | c :: rest =>
    if c = 43 then (hexBody rest : Int)
    else if c = 45 then -(hexBody rest : Int)
    else (hexBody (c :: rest) : Int)

/-- Model of `strtoll(p, NULL, 16)` applied to the bytes `cs`: skip
whitespace, optional sign, then the hex body.  The source copies the 4-
and 8-byte fields into stack arrays without NUL termination
(Connection.cpp:456-467); we model the call as reading exactly the
copied bytes.  Overflow clamping never triggers on at most 8 digits. -/
def strtoll16 (cs : List Nat) : Int := strtollBody (cs.dropWhile isSpaceC)

/-- The 4 ASCII bytes copied from `data + 1` and parsed as the size field
(Connection.cpp:456-459). -/
def sizeFieldOf (data : List Nat) : Int := strtoll16 ((data.drop 1).take 4)

/-- The 8 ASCII bytes copied from `data + 5` and parsed as the encoded
channel field (Connection.cpp:464-467). -/
def encodedFieldOf (data : List Nat) : Int := strtoll16 ((data.drop 5).take 8)

/-- The obfuscation mask `messages_size << 16 | messages_size`
(Connection.cpp:433 and 468), in 64-bit arithmetic. -/
def mask64 (s : Int) : Int := or64 (shl64 s 16) s

/-- The channel id recovered by `channelid ^= messages_size << 16 | messages_size`
(Connection.cpp:468). -/
def channelFieldOf (data : List Nat) : Int :=
  xor64 (encodedFieldOf data) (mask64 (sizeFieldOf data))

/-- Model of `Connection::UnpackPlaintextLength` (Connection.cpp:446-471).
The buffer is a byte list (`none` models a null pointer). -/
def UnpackPlaintextLength (buffer : Option (List Nat)) (offset length : Int) : Int :=
  match buffer with
  | none => 0
  | some bytes =>
    if offset < 0 ∨ length < 1 then 0
    else
      let data := bytes.drop offset.toNat
      if 13 > length then 0
      else
        let messages_size := sizeFieldOf data
        if 13 ≥ messages_size then 0
        else or64 (shl64 (channelFieldOf data) 32) messages_size

/-- C `tolower` on an ASCII byte (Connection.cpp:440). -/
def tolowerC (c : Nat) : Nat := if 65 ≤ c ∧ c ≤ 90 then c + 32 else c

/-- C `toupper` on an ASCII byte (Connection.cpp:440). -/
def toupperC (c : Nat) : Nat := if 97 ≤ c ∧ c ≤ 122 then c - 32 else c

/-- The per-character case randomization `RandomNext(0, 1) ? tolower(ch) : toupper(ch)`
(Connection.cpp:440); `flip = true` is the `tolower` draw. -/
def randomCaseOf (flip : Bool) (c : Nat) : Nat :=
  if flip then tolowerC c else toupperC c

/-- Uppercase hex digit character, as produced by `%X`. -/
def hexDigitChar (d : Nat) : Nat := if d < 10 then 48 + d else 55 + d

/-- Fixed-width big-endian uppercase hex rendering of `n`, as produced by
`%04X` / `%08X` for values below `16 ^ w`. -/
def hexDigits : Nat → Nat → List Nat
  | 0, _ => []
  | w + 1, n => hexDigitChar (n / 16 ^ w % 16) :: hexDigits w n

/-- The unsigned 32-bit pattern printed by `%08X` for
`channelId ^ (messages_size << 16 | messages_size)` (Connection.cpp:433).
The C expression is 32-bit `int` arithmetic; its bit pattern equals the
low 32 bits of the corresponding 64-bit computation. -/
def packEncoded (messages_size : Nat) (channelId : Int) : Nat :=
  u32 (xor64 channelId (mask64 (messages_size : Int)))

/-- Model of the byte blob written by `Connection::PackPlaintextHeaders`
(Connection.cpp:422-444): byte 0 is a random ASCII draw (`head`), bytes
1-12 are the two hex fields with per-character random case (`flips`),
and the tail (byte 13, overwritten by a fresh `RandomAscii()` at line
442, plus the remaining padding up to `messages_size` bytes) is `rest`.
The random draws are passed in as parameters. -/
def PackPlaintextHeaders (messages_size : Nat) (channelId : Int)
    (flips : List Bool) (head : Nat) (rest : List Nat) : List Nat :=
  head ::
    (List.zipWith randomCaseOf flips
      (hexDigits 4 messages_size ++ hexDigits 8 (packEncoded messages_size channelId))
      ++ rest)

/-- Modelled from the spec: `uds::threading::Hosting::BufferSize`
(`sizeof(messages)` at Connection.cpp:427-428) is declared in a header
that is not part of src/; spec section 4.1 and the wire format in
section 6.3 bound the packed size by 65535. -/
def BufferSize : Nat := 65535

/-- Body of the `ReadAsync` completion lambda installed by
`Connection::HandshakeClient` (Connection.cpp:339-363): given the
delivered `(buffer, length)`, the value handed to the callback. -/
def handshakeClientDeliver (buffer : Option (List Nat)) (length : Int) : Bool × Int :=
  match buffer with
  | none => (false, 0)
  | some bytes =>
    if length < 1 then (false, 0)
    else
      let v := UnpackPlaintextLength (some bytes) 0 length
      if v = 0 then (false, 0)
      else
        let messages_size := i32 v
        if messages_size ≠ length then (false, 0)
        else
          let channelId := i32 (sar64 v 32)
          if channelId = 0 then (false, 0)
          else (true, channelId)

/-- Result of `Connection::HandshakeClient` (Connection.cpp:331-364):
either no read is issued (null transmission or handler) or exactly one
`ReadAsync` is issued carrying the delivery continuation. -/
inductive ClientAction where
  | noRead : ClientAction
  | readAsync (deliver : Option (List Nat) → Int → Bool × Int) : ClientAction

/-- Model of `Connection::HandshakeClient` (Connection.cpp:331-364);
`transmissionP` / `handlerP` model non-nullness of the arguments. -/
def HandshakeClient (transmissionP handlerP : Bool) : ClientAction :=
  if transmissionP = false ∨ handlerP = false then ClientAction.noRead
  else ClientAction.readAsync handshakeClientDeliver

/-- Model of `Connection::HandshakeServer` (Connection.cpp:313-329):
`none` when the guard rejects (null transmission or handler,
`alignment < (UINT8_MAX << 1)` i.e. 510, or zero channel id), otherwise
`some blob` where `blob` is the packed header handed to
`transmission->WriteAsync`.  The pack randomness is passed in as
parameters. -/
def HandshakeServer (transmissionP handlerP : Bool) (alignment channelId : Int)
    (size : Nat) (flips : List Bool) (head : Nat) (rest : List Nat) : Option (List Nat) :=
  if transmissionP = false ∨ handlerP = false ∨ alignment < 510 ∨ channelId = 0 then none
  else some (PackPlaintextHeaders size channelId flips head rest)

/-- The `WriteAsync` completion lambda of `HandshakeServer`
(Connection.cpp:326-328): delivers `(success, channelId)`. -/
def handshakeServerDeliver (channelId : Int) (success : Bool) : Bool × Int :=
  (success, channelId)

/-- Modelled from the spec: the default value 65535 of `ECONNECTION_MSS`
is declared in `Connection.h`, which is not part of src/ (spec sections
3 and 6.1: "byte region of size `MSS` (default 65535)"). -/
def ECONNECTION_MSS_default : Nat := 65535

/-- Model of the constructor's MSS clamp (Connection.cpp:14-19): when a
configuration is present and `alignment >= (UINT8_MAX << 1)` (= 510)
and `alignment <= ECONNECTION_MSS`, the instance MSS becomes
`alignment`; otherwise it keeps the default. -/
def connectionCtorMSS (configPresent : Bool) (alignment : Int) : Nat :=
  if configPresent then
    if 510 ≤ alignment ∧ alignment ≤ (ECONNECTION_MSS_default : Int) then alignment.toNat
    else ECONNECTION_MSS_default
  else ECONNECTION_MSS_default

/-- Abstract state of one `Connection`.  Shared pointers are modelled by
presence booleans, the buffer by its allocated size, the keep-alive
timer by an optional handle.  `pendingTimers` is the scheduler's queue
of not-yet-fired, not-yet-cancelled timer handles for this connection
(instrumentation used to state the at-most-one-pending-timer claim);
`fired` counts `DisposedEvent` invocations. -/
structure ConnState where
  disposed : Bool
  available : Bool
  inboundP : Bool
  outboundP : Bool
  configP : Bool
  remoteP : Bool
  buffers : Option Nat
  resolverP : Bool
  timeout : Option Nat
  pendingTimers : List Nat
  nextHandle : Nat
  eventArmed : Bool
  fired : Nat
  mss : Nat
  domain : Bool
  keepAlived : Bool
  deriving Repr, DecidableEq

/-- Model of `Connection::IsNone` (Connection.cpp:167-174). -/
def IsNoneS (s : ConnState) : Bool :=
  s.disposed || !s.inboundP || !s.outboundP || !s.configP

/-- Model of `Connection::IsDisposed` (Connection.cpp:176-178). -/
def IsDisposedS (s : ConnState) : Bool :=
  IsNoneS s || !s.remoteP || s.buffers.isNone

/-- Model of `Connection::Available` (Connection.cpp:180-182). -/
def AvailableS (s : ConnState) : Bool :=
  s.available && !(IsDisposedS s)

/-- Model of `Connection::GetContext` (Connection.cpp:96-107): a context
is obtainable iff the inbound or the outbound transport is present. -/
def hasContext (s : ConnState) : Bool := s.inboundP || s.outboundP

/-- Model of `uds::threading::ClearTimeout(timeout_)`: cancels the
pending handle (removing it from the scheduler queue) and nulls the
field. -/
def clearTimeoutS (s : ConnState) : ConnState :=
  { s with timeout := none,
           pendingTimers :=
             match s.timeout with
             | some h => s.pendingTimers.erase h
             | none => s.pendingTimers }

/-- Model of `Connection::Dispose` (Connection.cpp:188-226): first
transition of the `disposed` latch closes and drops the transports, the
remote socket, the resolver and the buffer, clears the pending timer,
and fires `DisposedEvent` once if a handler is installed. -/
def disposeS (s : ConnState) : ConnState :=
  if s.disposed then s
  else
    let s1 : ConnState :=
      { s with disposed := true, inboundP := false, outboundP := false,
               remoteP := false, buffers := none, resolverP := false }
    let s2 := clearTimeoutS s1
    if s2.eventArmed then { s2 with eventArmed := false, fired := s2.fired + 1 } else s2

/-- Model of `Connection::Close` (Connection.cpp:184-186): delegates to `Dispose`. -/
def closeS (s : ConnState) : ConnState := disposeS s

/-- Model of `Connection::KeepAlivedSendCycle` (Connection.cpp:491-541),
invoked with `transmission = inbound_`: guarded by `disposed_` and the
transmission, requires a context, clears any previous pending handle,
then schedules a fresh timer (`SetTimeout` is modelled as always
returning a fresh handle). -/
def sendCycleS (s : ConnState) : Bool × ConnState :=
  if s.disposed || !s.inboundP then (false, s)
  else if !(hasContext s) then (false, s)
  else
    let s1 := clearTimeoutS s
    let s2 : ConnState :=
      { s1 with timeout := some s1.nextHandle,
                pendingTimers := s1.pendingTimers ++ [s1.nextHandle],
                nextHandle := s1.nextHandle + 1 }
    (true, s2)

/-- Model of `Connection::EstablishRemoteSocket` (Connection.cpp:65-73).
`pumpsOk` abstracts the success of arming both forwarding pumps
(`InboundSocketToRemoteSocket && RemoteSocketToOutboundSocket`),
`kaReadOk` the success of `KeepAlivedReadCycle(outbound_)`; the
keep-alive send cycle is modelled concretely because it owns the timer. -/
def establishS (s : ConnState) (pumpsOk kaReadOk : Bool) : Bool × ConnState :=
  if pumpsOk = false then (false, s)
  else if s.keepAlived then
    if kaReadOk = false then (false, s) else sendCycleS s
  else (true, s)

/-- Model of `Connection::Listen` (Connection.cpp:22-63).  `network`
models a non-null socket argument; `pumpsOk`/`kaReadOk` abstract pump
arming as in `establishS`; `socketOk` abstracts `NewRemoteSocket`
success in `ConnectRemoteSocket` (Connection.cpp:75-94).  Returns the
boolean result and the successor state.  Note the buffer is allocated
before the `IsNone`/`remote_` guard, exactly as in the source (line 29
precedes line 37). -/
def listenS (s : ConnState) (network pumpsOk kaReadOk socketOk : Bool) : Bool × ConnState :=
  if s.disposed || s.buffers.isSome then (false, s)
  else
    let s1 : ConnState := { s with buffers := some s.mss }
    if network then
      let s2 : ConnState := { s1 with remoteP := true }
      let r := establishS s2 pumpsOk kaReadOk
      (r.1, { r.2 with available := r.1 })
    else
      if IsNoneS s1 || s1.remoteP || !(hasContext s1) then (false, s1)
      else
        let s2 : ConnState := { s1 with resolverP := true }
        if s2.domain then (true, s2)
        else if socketOk = false then (false, s2)
        else (true, { s2 with remoteP := true })

/-- Model of the `async_connect` completion lambda (Connection.cpp:83-91):
on success it runs `EstablishRemoteSocket` and stores the result in
`available_`; afterwards, if not available, it closes the connection. -/
def connectDoneS (s : ConnState) (ok pumpsOk kaReadOk : Bool) : ConnState :=
  let s1 :=
    if ok then
      let r := establishS s pumpsOk kaReadOk
      { r.2 with available := r.1 }
    else s
  if s1.available then s1 else disposeS s1

/-- Model of the hostname-resolution completion lambda
(Connection.cpp:49-55): calls `ConnectRemoteSocket`, whose boolean
result is discarded; socket creation (Connection.cpp:124-127) requires
the configuration and a context, abstracted with `socketOk`. -/
def resolvedDoneS (s : ConnState) (socketOk : Bool) : ConnState :=
  if s.configP && hasContext s && socketOk then { s with remoteP := true } else s

/-- Model of the keep-alive timer firing (Connection.cpp:507-539): the
runtime removes the fired handle from its queue, the callback clears
its own handle (`if (timeout_) ClearTimeout(timeout_)`), then allocates
the random block and dispatches `WriteAsync`; `dispatchOk = false`
covers both allocation failure and a refused dispatch, which `Close()`
the connection. -/
def timerFireS (s : ConnState) (dispatchOk : Bool) : ConnState :=
  match s.timeout with
  | some h =>
    if s.pendingTimers = [h] then
      let s1 : ConnState := { s with pendingTimers := [], timeout := none }
      if dispatchOk then s1 else disposeS s1
    else s
  | none => s

/-- Model of the keep-alive `WriteAsync` completion (Connection.cpp:526-533):
on success it re-enters `KeepAlivedSendCycle`; any failure closes the
connection. -/
def timerWriteDoneS (s : ConnState) (ok : Bool) : ConnState :=
  if ok then
    let r := sendCycleS s
    if r.1 then r.2 else disposeS r.2
  else disposeS s

/-- Model of the keep-alive read-drain delivery (Connection.cpp:480-488):
length below 1 closes the connection, otherwise the frame is discarded
and the drain re-arms. -/
def kaReadDeliverS (s : ConnState) (len : Int) : ConnState :=
  if len < 1 then disposeS s else s

/-- Model of a forwarding-pump completion (Connection.cpp:245-250,
285-291, 305-311): failure of the delivery or of the re-arm closes the
connection. -/
def pumpDeliverS (s : ConnState) (ok : Bool) : ConnState :=
  if ok then s else disposeS s

/-- Alphabet of public calls and I/O completion callbacks acting on a
connection. -/
inductive ConnOp where
  | dispose : ConnOp
  | close : ConnOp
  | listen (network pumpsOk kaReadOk socketOk : Bool) : ConnOp
  | connectDone (ok pumpsOk kaReadOk : Bool) : ConnOp
  | resolvedDone (socketOk : Bool) : ConnOp
  | sendCycle : ConnOp
  | timerFire (dispatchOk : Bool) : ConnOp
  | timerWriteDone (ok : Bool) : ConnOp
  | kaReadDeliver (len : Int) : ConnOp
  | pumpDeliver (ok : Bool) : ConnOp

/-- One step of the connection under a public call or completion. -/
def stepConn (s : ConnState) : ConnOp → ConnState
  | ConnOp.dispose => disposeS s
  | ConnOp.close => closeS s
  | ConnOp.listen n p k so => (listenS s n p k so).2
  | ConnOp.connectDone ok p k => connectDoneS s ok p k
  | ConnOp.resolvedDone so => resolvedDoneS s so
  | ConnOp.sendCycle => (sendCycleS s).2
  | ConnOp.timerFire ok => timerFireS s ok
  | ConnOp.timerWriteDone ok => timerWriteDoneS s ok
  | ConnOp.kaReadDeliver len => kaReadDeliverS s len
  | ConnOp.pumpDeliver ok => pumpDeliverS s ok

/-- Run a sequence of calls/completions. -/
def runConn (s : ConnState) : List ConnOp → ConnState
  | [] => s
  | op :: ops => runConn (stepConn s op) ops

/-- Number of `false → true` transitions of the `disposed` flag along a run. -/
def disposeTransitions (s : ConnState) : List ConnOp → Nat
  | [] => 0
  | op :: ops =>
    (if s.disposed = false ∧ (stepConn s op).disposed = true then 1 else 0) +
      disposeTransitions (stepConn s op) ops

/-- Model of the constructor `Connection::Connection` (Connection.cpp:7-20):
a fresh connection with the clamped MSS, nothing disposed, no buffer,
no remote, no timer; `eventArmed` records whether a `DisposedEvent`
handler is installed. -/
def mkConn (configPresent : Bool) (alignment : Int)
    (domain keepAlived inboundP outboundP eventArmed : Bool) : ConnState :=
  { disposed := false, available := false, inboundP := inboundP, outboundP := outboundP,
    configP := configPresent, remoteP := false, buffers := none, resolverP := false,
    timeout := none, pendingTimers := [], nextHandle := 0, eventArmed := eventArmed,
    fired := 0, mss := connectionCtorMSS configPresent alignment,
    domain := domain, keepAlived := keepAlived }

/-- Safety predicate for the disposal protocol: before disposal no event
has fired, an armed handler means no firing yet, and the count never
exceeds one. -/
def DisposeInv (s : ConnState) : Prop :=
  (s.disposed = false → s.fired = 0) ∧ (s.eventArmed = true → s.fired = 0) ∧ s.fired ≤ 1

/-- Safety predicate for the keep-alive timer: the scheduler queue holds
exactly the handle recorded in `timeout_` (hence at most one pending
timer). -/
def TimerInv (s : ConnState) : Prop :=
  s.pendingTimers = s.timeout.toList

/-! Helper lemmas about the two's-complement wrappers. -/

theorem i64_eq_self {x : Int} (h0 : 0 ≤ x) (h1 : x < 2 ^ 63) : i64 x = x := by
  unfold i64
  have h2 : (2 : Int) ^ 64 = 2 ^ 63 + 2 ^ 63 := by norm_num
  rw [Int.emod_eq_of_lt (by linarith) (by linarith)]
  ring

theorem i32_eq_self {x : Int} (h0 : 0 ≤ x) (h1 : x < 2 ^ 31) : i32 x = x := by
  unfold i32
  have h2 : (2 : Int) ^ 32 = 2 ^ 31 + 2 ^ 31 := by norm_num
  rw [Int.emod_eq_of_lt (by linarith) (by linarith)]
  ring

theorem u64_ofNat {n : Nat} (h : n < 2 ^ 64) : u64 (n : Int) = n := by
  unfold u64
  rw [Int.emod_eq_of_lt (Int.natCast_nonneg n) (by exact_mod_cast h)]
  exact Int.toNat_natCast n

theorem u32_ofNat {n : Nat} (h : n < 2 ^ 32) : u32 (n : Int) = n := by
  unfold u32
  rw [Int.emod_eq_of_lt (Int.natCast_nonneg n) (by exact_mod_cast h)]
  exact Int.toNat_natCast n

theorem xor64_ofNat {a b : Nat} (ha : a < 2 ^ 63) (hb : b < 2 ^ 63) :
    xor64 (a : Int) (b : Int) = ((a ^^^ b : Nat) : Int) := by
  unfold xor64
  rw [u64_ofNat (lt_trans ha (by norm_num)), u64_ofNat (lt_trans hb (by norm_num))]
  exact i64_eq_self (Int.natCast_nonneg _)
    (by exact_mod_cast (Nat.bitwise_lt_two_pow ha hb : a ^^^ b < 2 ^ 63))

theorem or64_ofNat {a b : Nat} (ha : a < 2 ^ 63) (hb : b < 2 ^ 63) :
    or64 (a : Int) (b : Int) = ((a ||| b : Nat) : Int) := by
  unfold or64
  rw [u64_ofNat (lt_trans ha (by norm_num)), u64_ofNat (lt_trans hb (by norm_num))]
  exact i64_eq_self (Int.natCast_nonneg _)
    (by exact_mod_cast (Nat.bitwise_lt_two_pow ha hb : a ||| b < 2 ^ 63))

theorem shl64_ofNat {a : Nat} (n : Nat) (h : a * 2 ^ n < 2 ^ 63) :
    shl64 (a : Int) n = ((a * 2 ^ n : Nat) : Int) := by
  unfold shl64
  have hcast : (a : Int) * 2 ^ n = ((a * 2 ^ n : Nat) : Int) := by push_cast; ring
  rw [hcast]
  exact i64_eq_self (Int.natCast_nonneg _) (by exact_mod_cast h)

theorem mask64_ofNat {s : Nat} (h : s ≤ 65535) :
    mask64 (s : Int) = ((s * 2 ^ 16 ||| s : Nat) : Int) := by
  unfold mask64
  have hs : s * 2 ^ 16 < 2 ^ 63 :=
    lt_of_le_of_lt (Nat.mul_le_mul_right _ h) (by norm_num)
  rw [shl64_ofNat 16 hs]
  exact or64_ofNat hs (lt_of_le_of_lt h (by norm_num))

theorem maskNat_lt {s : Nat} (h : s ≤ 65535) : s * 2 ^ 16 ||| s < 2 ^ 32 :=
  (Nat.bitwise_lt_two_pow
    (lt_of_le_of_lt (Nat.mul_le_mul_right _ h) (by norm_num))
    (lt_of_le_of_lt h (by norm_num)) : s * 2 ^ 16 ||| s < 2 ^ 32)

/-! Helper lemmas about hex rendering and parsing. -/

theorem hexVal_randomCase : ∀ d, d < 16 → ∀ b, hexVal (randomCaseOf b (hexDigitChar d)) = some d := by
  decide

theorem hexVal_isSome_range {c : Nat} (h : (hexVal c).isSome) :
    (48 ≤ c ∧ c ≤ 57) ∨ (65 ≤ c ∧ c ≤ 70) ∨ (97 ≤ c ∧ c ≤ 102) := by
  unfold hexVal at h
  split_ifs at h with h1 h2 h3
  · exact Or.inl h1
  · exact Or.inr (Or.inl h2)
  · exact Or.inr (Or.inr h3)
  · simp at h

theorem isSpaceC_false_of_hex {c : Nat} (h : (hexVal c).isSome) : isSpaceC c = false := by
  have hr := hexVal_isSome_range h
  simp only [isSpaceC, Bool.or_eq_false_iff, beq_eq_false_iff_ne, Bool.and_eq_false_iff,
    decide_eq_false_iff_not]
  omega

theorem length_hexDigits (w n : Nat) : (hexDigits w n).length = w := by
  induction w with
  | zero => rfl
  | succ w ih => simp [hexDigits, ih]

theorem strtoll16_all_hex {cs : List Nat} (h : ∀ c ∈ cs, (hexVal c).isSome) :
    strtoll16 cs = (parseHexAux cs 0 : Int) := by
  cases cs with
  | nil => rfl
  | cons c rest =>
    have hc := h c (List.mem_cons_self c rest)
    have hrange := hexVal_isSome_range hc
    have hspace : isSpaceC c = false := isSpaceC_false_of_hex hc
    have h43 : ¬(c = 43) := by omega
    have h45 : ¬(c = 45) := by omega
    unfold strtoll16
    rw [List.dropWhile_cons_of_neg (by simp [hspace])]
    simp only [strtollBody, if_neg h43, if_neg h45]
    cases rest with
    | nil => rfl
    | cons x rest2 =>
      have hx := h x (by simp)
      have hxr := hexVal_isSome_range hx
      have hcond : ¬(c = 48 ∧ (x = 120 ∨ x = 88) ∧ (rest2.head?.bind hexVal).isSome = true) := by
        rintro ⟨-, hx12, -⟩
        omega
      simp only [hexBody, if_neg hcond]

theorem parseHexAux_zip (w : Nat) : ∀ (flips : List Bool) (n acc : Nat), w ≤ flips.length →
    parseHexAux (List.zipWith randomCaseOf flips (hexDigits w n)) acc
      = acc * 16 ^ w + n % 16 ^ w := by
  induction w with
  | zero => intro flips n acc _; simp [hexDigits, parseHexAux, Nat.mod_one]
  | succ w ih =>
    intro flips n acc h
    cases flips with
    | nil => simp at h
    | cons f fs =>
      have hd : hexVal (randomCaseOf f (hexDigitChar (n / 16 ^ w % 16))) = some (n / 16 ^ w % 16) :=
        hexVal_randomCase _ (Nat.mod_lt _ (by norm_num)) f
      simp only [hexDigits, List.zipWith_cons_cons, parseHexAux, hd]
      rw [ih fs n (16 * acc + n / 16 ^ w % 16) (by simpa using h)]
      have hmm : n % (16 ^ w * 16) = n % 16 ^ w + 16 ^ w * (n / 16 ^ w % 16) := Nat.mod_mul
      rw [pow_succ, hmm]
      ring

theorem hexVal_isSome_of_mem_zip :
    ∀ (w : Nat) (flips : List Bool) (n : Nat) (c : Nat),
      c ∈ List.zipWith randomCaseOf flips (hexDigits w n) → (hexVal c).isSome := by
  intro w
  induction w with
  | zero => intro flips n c hc; simp [hexDigits] at hc
  | succ w ih =>
    intro flips n c hc
    cases flips with
    | nil => simp at hc
    | cons f fs =>
      simp only [hexDigits, List.zipWith_cons_cons, List.mem_cons] at hc
      rcases hc with rfl | hc
      · rw [hexVal_randomCase _ (Nat.mod_lt _ (by norm_num)) f]; rfl
      · exact ih fs n c hc

theorem parseHexAux_lt : ∀ (cs : List Nat) (acc : Nat),
    parseHexAux cs acc < (acc + 1) * 16 ^ cs.length := by
  intro cs
  induction cs with
  | nil =>
    intro acc
    simp only [parseHexAux, List.length_nil, pow_zero, mul_one]
    omega
  | cons c rest ih =>
    intro acc
    cases hv : hexVal c with
    | none =>
      simp only [parseHexAux, hv]
      calc acc < acc + 1 := Nat.lt_succ_self acc
        _ ≤ (acc + 1) * 16 ^ (c :: rest).length := Nat.le_mul_of_pos_right _ (by positivity)
    | some d =>
      have hd : d < 16 := by
        unfold hexVal at hv
        split_ifs at hv <;> simp at hv <;> omega
      simp only [parseHexAux, hv]
      calc parseHexAux rest (16 * acc + d)
          < (16 * acc + d + 1) * 16 ^ rest.length := ih _
        _ ≤ ((acc + 1) * 16) * 16 ^ rest.length := by
            have : 16 * acc + d + 1 ≤ (acc + 1) * 16 := by omega
            exact Nat.mul_le_mul_right _ this
        _ = (acc + 1) * 16 ^ (c :: rest).length := by
            simp [List.length_cons, pow_succ]; ring

theorem hexBody_lt (cs : List Nat) : hexBody cs < 16 ^ cs.length := by
  have hmono : ∀ m n : Nat, m ≤ n → (16 : Nat) ^ m ≤ 16 ^ n := fun m n h =>
    Nat.pow_le_pow_right (by norm_num) h
  cases cs with
  | nil => simp [hexBody, parseHexAux]
  | cons c rest =>
    cases rest with
    | nil =>
      have := parseHexAux_lt [c] 0
      simpa [hexBody] using this
    | cons x rest2 =>
      simp only [hexBody]
      split_ifs with hcond
      · have h1 := parseHexAux_lt rest2 0
        have h2 : (16 : Nat) ^ rest2.length ≤ 16 ^ (c :: x :: rest2).length := by
          apply hmono
          simp only [List.length_cons]
          omega
        omega
      · have h1 := parseHexAux_lt (c :: x :: rest2) 0
        omega

theorem strtoll16_lt (cs : List Nat) : strtoll16 cs < ((16 : Int)) ^ cs.length := by
  have hmono : ∀ m n : Nat, m ≤ n → (16 : Nat) ^ m ≤ 16 ^ n := fun m n h =>
    Nat.pow_le_pow_right (by norm_num) h
  have hdlen : (cs.dropWhile isSpaceC).length ≤ cs.length := (List.dropWhile_sublist isSpaceC).length_le
  have hpow : ∀ m : Nat, m ≤ cs.length → ((16 : Int)) ^ m ≤ 16 ^ cs.length := by
    intro m hm
    calc ((16 : Int)) ^ m = ((16 ^ m : Nat) : Int) := by norm_cast
      _ ≤ ((16 ^ cs.length : Nat) : Int) := by exact_mod_cast hmono m cs.length hm
      _ = ((16 : Int)) ^ cs.length := by norm_cast
  unfold strtoll16
  cases hds : cs.dropWhile isSpaceC with
  | nil =>
    simp only [strtollBody]
    positivity
  | cons c rest =>
    have hlen : rest.length + 1 ≤ cs.length := by
      have := hdlen
      rw [hds] at this
      simpa using this
    simp only [strtollBody]
    split_ifs with h43 h45
    · have hb := hexBody_lt rest
      calc (hexBody rest : Int) < ((16 ^ rest.length : Nat) : Int) := by exact_mod_cast hb
        _ = ((16 : Int)) ^ rest.length := by norm_cast
        _ ≤ _ := hpow _ (by omega)
    · have hb : (0 : Int) ≤ (hexBody rest : Int) := Int.natCast_nonneg _
      have : (0 : Int) < ((16 : Int)) ^ cs.length := by positivity
      omega
    · have hb := hexBody_lt (c :: rest)
      calc (hexBody (c :: rest) : Int) < ((16 ^ (c :: rest).length : Nat) : Int) := by
            exact_mod_cast hb
        _ = ((16 : Int)) ^ (rest.length + 1) := by norm_cast
        _ ≤ _ := hpow _ hlen

theorem sizeFieldOf_lt (data : List Nat) : sizeFieldOf data < 65536 := by
  have h := strtoll16_lt ((data.drop 1).take 4)
  have hlen : ((data.drop 1).take 4).length ≤ 4 := by
    simp only [List.length_take]
    exact Nat.min_le_left _ _
  have hpow : ((16 : Int)) ^ ((data.drop 1).take 4).length ≤ 16 ^ 4 := by
    exact pow_le_pow_right₀ (by norm_num) hlen
  unfold sizeFieldOf
  calc strtoll16 ((data.drop 1).take 4) < _ := h
    _ ≤ ((16 : Int)) ^ 4 := hpow
    _ = 65536 := by norm_num

theorem u32_lt (x : Int) : u32 x < 2 ^ 32 := by
  unfold u32
  have h1 := Int.emod_lt_of_pos x (show (0 : Int) < 2 ^ 32 by positivity)
  have h2 := Int.emod_nonneg x (show (2 : Int) ^ 32 ≠ 0 by positivity)
  omega

theorem shl64_zero (n : Nat) : shl64 0 n = 0 := by
  unfold shl64 i64
  norm_num

theorem or64_zero_small {m : Int} (h0 : 0 ≤ m) (h : m < 2 ^ 32) : or64 0 m = m := by
  unfold or64 u64
  have hm : m % 2 ^ 64 = m := Int.emod_eq_of_lt h0 (by linarith)
  have h0m : (0 : Int) % 2 ^ 64 = 0 := by norm_num
  rw [hm, h0m]
  simp only [Int.toNat_zero, Nat.zero_or]
  rw [i64_eq_self (Int.natCast_nonneg _) (by omega)]
  omega

theorem sar64_small {m : Int} (h0 : 0 ≤ m) (h : m < 2 ^ 32) : sar64 m 32 = 0 := by
  unfold sar64
  rw [i64_eq_self h0 (by linarith), Int.fdiv_eq_ediv _ (by positivity)]
  exact Int.ediv_eq_zero_of_lt h0 h

theorem i32_zero : i32 0 = 0 := by
  unfold i32
  norm_num

/-! Field extraction from a packed header blob. -/

theorem take_append_len {A : Type} (l1 l2 : List A) (n : Nat) (h : l1.length = n) :
    (l1 ++ l2).take n = l1 := by
  subst h
  exact List.take_left l1 l2

theorem drop_append_len {A : Type} (l1 l2 : List A) (n : Nat) (h : l1.length = n) :
    (l1 ++ l2).drop n = l2 := by
  subst h
  exact List.drop_left l1 l2

theorem packed_split (size : Nat) (cid : Int) (flips : List Bool) (head : Nat)
    (rest : List Nat) (hf : flips.length = 12) :
    ((PackPlaintextHeaders size cid flips head rest).drop 1).take 4
        = List.zipWith randomCaseOf (flips.take 4) (hexDigits 4 size)
      ∧ ((PackPlaintextHeaders size cid flips head rest).drop 5).take 8
        = List.zipWith randomCaseOf (flips.drop 4) (hexDigits 8 (packEncoded size cid)) := by
  have h4 : (flips.take 4).length = (hexDigits 4 size).length := by
    simp [List.length_take, length_hexDigits, hf]
  have hz : List.zipWith randomCaseOf flips
        (hexDigits 4 size ++ hexDigits 8 (packEncoded size cid))
      = List.zipWith randomCaseOf (flips.take 4) (hexDigits 4 size)
        ++ List.zipWith randomCaseOf (flips.drop 4) (hexDigits 8 (packEncoded size cid)) := by
    conv_lhs => rw [← List.take_append_drop 4 flips]
    exact List.zipWith_append _ _ _ _ _ h4
  have hlen4 : (List.zipWith randomCaseOf (flips.take 4) (hexDigits 4 size)).length = 4 := by
    simp [List.length_zipWith, List.length_take, length_hexDigits, hf]
  have hlen8 : (List.zipWith randomCaseOf (flips.drop 4)
      (hexDigits 8 (packEncoded size cid))).length = 8 := by
    simp [List.length_zipWith, List.length_drop, length_hexDigits, hf]
  unfold PackPlaintextHeaders
  rw [hz]
  constructor
  · rw [show (1 : Nat) = 0 + 1 from rfl, List.drop_succ_cons, List.drop_zero,
      List.append_assoc, take_append_len _ _ 4 hlen4]
  · rw [show (5 : Nat) = 4 + 1 from rfl, List.drop_succ_cons, List.append_assoc,
      drop_append_len _ _ 4 hlen4, take_append_len _ _ 8 hlen8]

theorem packed_sizeField (size : Nat) (cid : Int) (flips : List Bool) (head : Nat)
    (rest : List Nat) (hf : flips.length = 12) (hs : size ≤ 65535) :
    sizeFieldOf (PackPlaintextHeaders size cid flips head rest) = (size : Int) := by
  unfold sizeFieldOf
  rw [(packed_split size cid flips head rest hf).1]
  rw [strtoll16_all_hex (fun c hc => hexVal_isSome_of_mem_zip 4 _ size c hc)]
  rw [parseHexAux_zip 4 (flips.take 4) size 0 (by simp [List.length_take, hf])]
  have hmod : size % 16 ^ 4 = size := Nat.mod_eq_of_lt (by omega)
  simp only [Nat.zero_mul, Nat.zero_add, hmod]

theorem packEncoded_lt (size : Nat) (cid : Int) : packEncoded size cid < 2 ^ 32 := by
  unfold packEncoded
  exact u32_lt _

theorem packed_encodedField (size : Nat) (cid : Int) (flips : List Bool) (head : Nat)
    (rest : List Nat) (hf : flips.length = 12) :
    encodedFieldOf (PackPlaintextHeaders size cid flips head rest)
      = ((packEncoded size cid : Nat) : Int) := by
  unfold encodedFieldOf
  rw [(packed_split size cid flips head rest hf).2]
  rw [strtoll16_all_hex (fun c hc => hexVal_isSome_of_mem_zip 8 _ _ c hc)]
  rw [parseHexAux_zip 8 (flips.drop 4) (packEncoded size cid) 0 (by simp [List.length_drop, hf])]
  have hmod : packEncoded size cid % 16 ^ 8 = packEncoded size cid := by
    have h := packEncoded_lt size cid
    exact Nat.mod_eq_of_lt (by norm_num at h ⊢; omega)
  simp only [Nat.zero_mul, Nat.zero_add, hmod]

theorem packed_channelField (size cid : Nat) (flips : List Bool) (head : Nat)
    (rest : List Nat) (hf : flips.length = 12) (hs : size ≤ 65535) (hc : cid < 2 ^ 31) :
    channelFieldOf (PackPlaintextHeaders size (cid : Int) flips head rest) = (cid : Int) := by
  unfold channelFieldOf
  rw [packed_encodedField size (cid : Int) flips head rest hf,
      packed_sizeField size (cid : Int) flips head rest hf hs]
  have hmask_lt : size * 2 ^ 16 ||| size < 2 ^ 32 := maskNat_lt hs
  have hcid63 : cid < 2 ^ 63 := lt_trans hc (by norm_num)
  have hxor_lt : cid ^^^ (size * 2 ^ 16 ||| size) < 2 ^ 32 :=
    (Nat.bitwise_lt_two_pow (lt_trans hc (by norm_num)) hmask_lt :
      cid ^^^ (size * 2 ^ 16 ||| size) < 2 ^ 32)
  have henc : packEncoded size (cid : Int) = cid ^^^ (size * 2 ^ 16 ||| size) := by
    unfold packEncoded
    rw [mask64_ofNat hs, xor64_ofNat hcid63 (lt_trans hmask_lt (by norm_num))]
    exact u32_ofNat hxor_lt
  rw [henc, mask64_ofNat hs,
      xor64_ofNat (lt_trans hxor_lt (by norm_num)) (lt_trans hmask_lt (by norm_num)),
      Nat.xor_cancel_right]

theorem unpack_pack_value (size cid : Nat) (flips : List Bool) (head : Nat)
    (rest : List Nat) (h14 : 14 ≤ size) (h16 : size ≤ 65535) (hc1 : 1 ≤ cid)
    (hc : cid ≤ 2 ^ 31 - 1) (hf : flips.length = 12) :
    UnpackPlaintextLength (some (PackPlaintextHeaders size (cid : Int) flips head rest)) 0
        (size : Int)
      = or64 (shl64 (cid : Int) 32) (size : Int) := by
  have hc31 : cid < 2 ^ 31 := by omega
  have hszInt : (14 : Int) ≤ (size : Int) := by exact_mod_cast h14
  have hsize := packed_sizeField size (cid : Int) flips head rest hf h16
  have hchan := packed_channelField size cid flips head rest hf h16 hc31
  simp only [UnpackPlaintextLength]
  rw [if_neg (by omega)]
  simp only [Int.toNat_zero, List.drop_zero]
  rw [if_neg (by omega), hsize, hchan, if_neg (by omega)]

theorem deliver_pack_value (size cid : Nat) (flips : List Bool) (head : Nat)
    (rest : List Nat) (h14 : 14 ≤ size) (h16 : size ≤ 65535) (hc1 : 1 ≤ cid)
    (hc : cid ≤ 2 ^ 31 - 1) (hf : flips.length = 12) :
    handshakeClientDeliver (some (PackPlaintextHeaders size (cid : Int) flips head rest))
        (size : Int)
      = (true, (cid : Int)) := by
  have hc31 : cid < 2 ^ 31 := by omega
  have hszInt : (14 : Int) ≤ (size : Int) := by exact_mod_cast h14
  have hshift_lt : cid * 2 ^ 32 < 2 ^ 63 := by
    have h1 : cid * 2 ^ 32 ≤ (2 ^ 31 - 1) * 2 ^ 32 := Nat.mul_le_mul_right _ hc
    norm_num at h1 ⊢
    omega
  have hsize32 : size < 2 ^ 32 := by norm_num; omega
  have hvGe : (1 : Nat) ≤ 2 ^ 32 * cid + size := by
    have : 1 ≤ size := by omega
    omega
  have hvLt : 2 ^ 32 * cid + size < 2 ^ 63 := by
    have h1 : 2 ^ 32 * cid ≤ 2 ^ 32 * (2 ^ 31 - 1) := Nat.mul_le_mul_left _ hc
    norm_num at h1 ⊢
    omega
  have hvnat : or64 (shl64 (cid : Int) 32) (size : Int) = ((2 ^ 32 * cid + size : Nat) : Int) := by
    rw [shl64_ofNat 32 hshift_lt,
        or64_ofNat hshift_lt (show size < 2 ^ 63 by norm_num; omega)]
    have hor := Nat.mul_add_lt_is_or hsize32 cid
    rw [Nat.mul_comm cid (2 ^ 32), ← hor]
  have hunpack := unpack_pack_value size cid flips head rest h14 h16 hc1 hc hf
  have hi32v : i32 ((2 ^ 32 * cid + size : Nat) : Int) = (size : Int) := by
    unfold i32
    push_cast
    omega
  have hsarv : sar64 ((2 ^ 32 * cid + size : Nat) : Int) 32 = (cid : Int) := by
    unfold sar64
    rw [i64_eq_self (Int.natCast_nonneg _) (by exact_mod_cast hvLt),
        Int.fdiv_eq_ediv _ (by positivity)]
    push_cast
    omega
  have hi32cid : i32 (cid : Int) = (cid : Int) :=
    i32_eq_self (Int.natCast_nonneg _) (by exact_mod_cast hc31)
  have hcid0 : ((cid : Int)) ≠ 0 := by
    have : (1 : Int) ≤ (cid : Int) := by exact_mod_cast hc1
    omega
  simp only [handshakeClientDeliver]
  rw [if_neg (by omega), hunpack, hvnat]
  rw [if_neg (by
    have : (0 : Int) < ((2 ^ 32 * cid + size : Nat) : Int) := by exact_mod_cast hvGe
    omega)]
  rw [hi32v, if_neg (by omega), hsarv, hi32cid, if_neg hcid0]

/-- C1: round-trip of the handshake codec.  For every size the pack side
may choose (any `size` in `[14, 65535]`; the implementation draws from
`[510, min(alignment, BufferSize)]`, a subrange), every channel id in
`[1, 2^31 - 1]`, every case-randomization draw, and every random head
and padding bytes, unpacking the `size`-byte blob written by
`PackPlaintextHeaders` returns the packed value
`(channelId << 32) | size`, and the client delivery recovers exactly
`(channelId, size)` (success with the original channel id at the
matching length). -/
theorem unpack_pack_roundtrip (size cid : Nat) (flips : List Bool) (head : Nat)
    (rest : List Nat) (h14 : 14 ≤ size) (h16 : size ≤ 65535) (hc1 : 1 ≤ cid)
    (hc : cid ≤ 2 ^ 31 - 1) (hf : flips.length = 12) (_hr : rest.length = size - 13) :
    UnpackPlaintextLength (some (PackPlaintextHeaders size (cid : Int) flips head rest)) 0
        (size : Int)
      = or64 (shl64 (cid : Int) 32) (size : Int)
    ∧ handshakeClientDeliver (some (PackPlaintextHeaders size (cid : Int) flips head rest))
        (size : Int)
      = (true, (cid : Int)) :=
  ⟨unpack_pack_value size cid flips head rest h14 h16 hc1 hc hf,
   deliver_pack_value size cid flips head rest h14 h16 hc1 hc hf⟩

/-- Witness for C1 at size 600, channel id 1588444911, concrete draws. -/
theorem unpack_pack_roundtrip_witness :
    UnpackPlaintextLength
        (some (PackPlaintextHeaders 600 ((1588444911 : Nat) : Int) (List.replicate 12 true) 65
          (List.replicate 587 66))) 0 ((600 : Nat) : Int)
      = or64 (shl64 ((1588444911 : Nat) : Int) 32) ((600 : Nat) : Int)
    ∧ handshakeClientDeliver
        (some (PackPlaintextHeaders 600 ((1588444911 : Nat) : Int) (List.replicate 12 true) 65
          (List.replicate 587 66))) ((600 : Nat) : Int)
      = (true, ((1588444911 : Nat) : Int)) :=
  unpack_pack_roundtrip 600 1588444911 (List.replicate 12 true) 65 (List.replicate 587 66)
    (by norm_num) (by norm_num) (by norm_num) (by norm_num)
    (by rw [List.length_replicate]) (by rw [List.length_replicate])

theorem unpack_eq_of_ne_zero {bytes : List Nat} {length : Int}
    (h : UnpackPlaintextLength (some bytes) 0 length ≠ 0) :
    13 < sizeFieldOf bytes ∧ 13 ≤ length ∧
      UnpackPlaintextLength (some bytes) 0 length
        = or64 (shl64 (channelFieldOf bytes) 32) (sizeFieldOf bytes) := by
  have e1 : ∀ _ : (0 : Int) < 0 ∨ length < 1,
      UnpackPlaintextLength (some bytes) 0 length = 0 := by
    intro hc
    simp only [UnpackPlaintextLength]
    rw [if_pos hc]
  have hc1 : ¬((0 : Int) < 0 ∨ length < 1) := fun hc => h (e1 hc)
  have e2 : ∀ _ : (13 : Int) > length,
      UnpackPlaintextLength (some bytes) 0 length = 0 := by
    intro hc
    simp only [UnpackPlaintextLength, Int.toNat_zero, List.drop_zero]
    rw [if_neg hc1, if_pos hc]
  have hc2 : ¬((13 : Int) > length) := fun hc => h (e2 hc)
  have e3 : ∀ _ : (13 : Int) ≥ sizeFieldOf bytes,
      UnpackPlaintextLength (some bytes) 0 length = 0 := by
    intro hc
    simp only [UnpackPlaintextLength, Int.toNat_zero, List.drop_zero]
    rw [if_neg hc1, if_neg hc2, if_pos hc]
  have hc3 : ¬((13 : Int) ≥ sizeFieldOf bytes) := fun hc => h (e3 hc)
  refine ⟨by omega, by omega, ?_⟩
  simp only [UnpackPlaintextLength, Int.toNat_zero, List.drop_zero]
  rw [if_neg hc1, if_neg hc2, if_neg hc3]

/-- C2 counterexample: a 16-byte frame whose recovered channel id is 0
(the 8 hex digits `00100010` equal the mask of size 16) is not rejected
by `UnpackPlaintextLength`: it returns the size 16, not 0, because the
source never tests the recovered channel id. -/
theorem unpack_zero_channel_counterexample :
    channelFieldOf [65, 48, 48, 49, 48, 48, 48, 49, 48, 48, 48, 49, 48, 66, 66, 66] = 0
    ∧ UnpackPlaintextLength
        (some [65, 48, 48, 49, 48, 48, 48, 49, 48, 48, 48, 49, 48, 66, 66, 66]) 0 16 = 16
    ∧ (16 : Int) ≠ 0 := by
  refine ⟨by decide, by decide, by decide⟩

/-- C2 (amended): `UnpackPlaintextLength` returns 0 whenever the decoded
size field is at most 13 (or the null/offset/length guards fire), but it
does not test the recovered channel id: when that id is 0 it returns
the bare size.  The zero-channel rejection is performed by the caller
`HandshakeClient`, whose delivery yields `(false, 0)` on every frame
whose recovered channel id is 0. -/
theorem unpack_small_size_and_client_zero_channel :
    (∀ (bytes : List Nat) (offset length : Int),
        sizeFieldOf (bytes.drop offset.toNat) ≤ 13 →
        UnpackPlaintextLength (some bytes) offset length = 0)
    ∧ ∀ (bytes : List Nat) (length : Int),
        channelFieldOf bytes = 0 →
        handshakeClientDeliver (some bytes) length = (false, 0) := by
  constructor
  · intro bytes offset length h
    simp only [UnpackPlaintextLength]
    split_ifs with h1 h2
    · rfl
    · rfl
    · rfl
  · intro bytes length hch
    simp only [handshakeClientDeliver]
    by_cases hl : length < 1
    · rw [if_pos hl]
    · rw [if_neg hl]
      by_cases hv : UnpackPlaintextLength (some bytes) 0 length = 0
      · rw [if_pos hv]
      · rw [if_neg hv]
        obtain ⟨hgt, hlen13, hveq⟩ := unpack_eq_of_ne_zero hv
        have hms_lt := sizeFieldOf_lt bytes
        have hor : or64 0 (sizeFieldOf bytes) = sizeFieldOf bytes :=
          or64_zero_small (by omega) (by norm_num; omega)
        rw [hveq, hch, shl64_zero, hor]
        by_cases hne : i32 (sizeFieldOf bytes) ≠ length
        · rw [if_pos hne]
        · rw [if_neg hne, sar64_small (by omega) (by norm_num; omega), i32_zero, if_pos rfl]

/-- Witness for C2 (amended): a frame with size field `0005` is rejected
by Unpack, and the 16-byte zero-channel frame is rejected by the client
delivery. -/
theorem unpack_small_size_and_client_zero_channel_witness :
    UnpackPlaintextLength (some [65, 48, 48, 48, 53, 65, 65, 65, 65, 65, 65, 65, 65]) 0 13 = 0
    ∧ handshakeClientDeliver
        (some [65, 48, 48, 49, 48, 48, 48, 49, 48, 48, 48, 49, 48, 66, 66, 66]) 16
      = (false, 0) :=
  ⟨unpack_small_size_and_client_zero_channel.1
      [65, 48, 48, 48, 53, 65, 65, 65, 65, 65, 65, 65, 65] 0 13 (by decide),
   unpack_small_size_and_client_zero_channel.2
      [65, 48, 48, 49, 48, 48, 48, 49, 48, 48, 48, 49, 48, 66, 66, 66] 16 (by decide)⟩

/-- C3 counterexample: a frame whose decoded size field is 20 handed to
Unpack with length 40 (a mismatch) is not rejected:
`UnpackPlaintextLength` returns `(1 << 32) | 20`, not 0, because the
source never compares the decoded size with the delivered length. -/
theorem unpack_length_mismatch_counterexample :
    sizeFieldOf [65, 48, 48, 49, 52, 48, 48, 49, 52, 48, 48, 49, 53, 66, 66, 66] = 20
    ∧ ((20 : Int) ≠ 40)
    ∧ UnpackPlaintextLength
        (some [65, 48, 48, 49, 52, 48, 48, 49, 52, 48, 48, 49, 53, 66, 66, 66]) 0 40
      = 4294967316
    ∧ (4294967316 : Int) ≠ 0 := by
  refine ⟨by decide, by decide, by decide, by decide⟩

/-- C3 (amended): the `len != size` rejection lives in `HandshakeClient`,
not in `UnpackPlaintextLength`: every delivered frame whose decoded size
(the low 32 bits of the unpacked value) differs from the delivered
length is rejected by the client delivery with `(false, 0)`. -/
theorem client_rejects_length_mismatch :
    ∀ (bytes : List Nat) (length : Int),
      i32 (UnpackPlaintextLength (some bytes) 0 length) ≠ length →
      handshakeClientDeliver (some bytes) length = (false, 0) := by
  intro bytes length h
  simp only [handshakeClientDeliver]
  by_cases hl : length < 1
  · rw [if_pos hl]
  · rw [if_neg hl]
    by_cases hv : UnpackPlaintextLength (some bytes) 0 length = 0
    · rw [if_pos hv]
    · rw [if_neg hv, if_pos h]

/-- Witness for C3 (amended) at the 20-vs-40 mismatch frame. -/
theorem client_rejects_length_mismatch_witness :
    handshakeClientDeliver
        (some [65, 48, 48, 49, 52, 48, 48, 49, 52, 48, 48, 49, 53, 66, 66, 66]) 40
      = (false, 0) :=
  client_rejects_length_mismatch
    [65, 48, 48, 49, 52, 48, 48, 49, 52, 48, 48, 49, 53, 66, 66, 66] 40 (by decide)

/-- C4: `HandshakeClient` with non-null transmission and handler issues
exactly one `ReadAsync` carrying the delivery continuation (and refuses
otherwise), and the delivery yields `(true, channelId)` exactly when the
buffer is non-null, the length is positive, the unpacked value is
nonzero, the decoded size (its low 32 bits) equals the delivered
length, and the decoded channel id (its high 32 bits) is nonzero; in
every failing case it yields `(false, 0)`. -/
theorem handshakeClient_single_read_spec :
    HandshakeClient true true = ClientAction.readAsync handshakeClientDeliver
    ∧ HandshakeClient false true = ClientAction.noRead
    ∧ HandshakeClient true false = ClientAction.noRead
    ∧ ∀ (buffer : Option (List Nat)) (length : Int),
        handshakeClientDeliver buffer length =
          if buffer.isSome = true ∧ 1 ≤ length
              ∧ UnpackPlaintextLength buffer 0 length ≠ 0
              ∧ i32 (UnpackPlaintextLength buffer 0 length) = length
              ∧ i32 (sar64 (UnpackPlaintextLength buffer 0 length) 32) ≠ 0
            then (true, i32 (sar64 (UnpackPlaintextLength buffer 0 length) 32))
            else (false, 0) := by
  refine ⟨rfl, rfl, rfl, ?_⟩
  intro buffer length
  cases buffer with
  | none =>
    rw [if_neg]
    · rfl
    · rintro ⟨hs, -⟩
      simp at hs
  | some bytes =>
    simp only [handshakeClientDeliver, Option.isSome_some]
    by_cases hl : length < 1
    · rw [if_pos hl, if_neg]
      rintro ⟨-, h1, -⟩
      omega
    · rw [if_neg hl]
      by_cases hv : UnpackPlaintextLength (some bytes) 0 length = 0
      · rw [if_pos hv, if_neg]
        rintro ⟨-, -, h2, -⟩
        exact h2 hv
      · rw [if_neg hv]
        by_cases hm : i32 (UnpackPlaintextLength (some bytes) 0 length) ≠ length
        · rw [if_pos hm, if_neg]
          rintro ⟨-, -, -, h3, -⟩
          exact hm h3
        · rw [if_neg hm]
          push_neg at hm
          by_cases hch : i32 (sar64 (UnpackPlaintextLength (some bytes) 0 length) 32) = 0
          · rw [if_pos hch, if_neg]
            rintro ⟨-, -, -, -, h4⟩
            exact h4 hch
          · rw [if_neg hch, if_pos ⟨by simp, by omega, hv, hm, hch⟩]

/-- C5 counterexample: at `alignment = 510 < 512`, with non-null
transmission and handler, channel id 1 and a valid draw of size 510,
`HandshakeServer` does pack and write a header (the guard threshold in
the source is `UINT8_MAX << 1 = 510`, not 512). -/
theorem handshakeServer_writes_at_510 :
    (510 : Int) < 512
    ∧ (HandshakeServer true true 510 1 510 (List.replicate 12 false) 65
        (List.replicate 497 65)).isSome = true := by
  refine ⟨by decide, rfl⟩

/-- C5 (amended): the alignment guard threshold is `UINT8_MAX << 1 = 510`
(not 512): `HandshakeServer` returns `none` (no write) exactly when the
transmission or handler is missing, `alignment < 510`, or the channel id
is 0; otherwise it packs a header of the drawn size and hands it to
`WriteAsync`, whose completion delivers `(success, channelId)`. -/
theorem handshakeServer_guard_spec (tp hp : Bool) (alignment channelId : Int)
    (size : Nat) (flips : List Bool) (head : Nat) (rest : List Nat)
    (hf : flips.length = 12) (hr : rest.length = size - 13) (h14 : 14 ≤ size) :
    (HandshakeServer tp hp alignment channelId size flips head rest = none
      ↔ (tp = false ∨ hp = false ∨ alignment < 510 ∨ channelId = 0))
    ∧ (∀ blob, HandshakeServer tp hp alignment channelId size flips head rest = some blob →
        blob.length = size)
    ∧ ∀ success, handshakeServerDeliver channelId success = (success, channelId) := by
  refine ⟨?_, ?_, fun success => rfl⟩
  · unfold HandshakeServer
    split_ifs with h
    · simp [h]
    · simp [h]
  · intro blob hblob
    unfold HandshakeServer at hblob
    split_ifs at hblob with h
    have hb : blob = PackPlaintextHeaders size channelId flips head rest := by
      injection hblob with h2
      exact h2.symm
    subst hb
    unfold PackPlaintextHeaders
    simp only [List.length_cons, List.length_append, List.length_zipWith, hf,
      length_hexDigits, hr]
    omega

/-- Witness for C5 (amended) at alignment 600, channel id 5, size 600. -/
theorem handshakeServer_guard_spec_witness :
    (HandshakeServer true true 600 5 600 (List.replicate 12 false) 65
        (List.replicate 587 65) = none
      ↔ (true = false ∨ true = false ∨ (600 : Int) < 510 ∨ (5 : Int) = 0))
    ∧ (∀ blob, HandshakeServer true true 600 5 600 (List.replicate 12 false) 65
        (List.replicate 587 65) = some blob → blob.length = 600)
    ∧ ∀ success, handshakeServerDeliver 5 success = (success, 5) :=
  handshakeServer_guard_spec true true 600 5 600 (List.replicate 12 false) 65
    (List.replicate 587 65) (by rw [List.length_replicate]) (by rw [List.length_replicate])
    (by norm_num)

/-! Lifecycle lemmas: disposal latch, event count, timer queue. -/

theorem clearTimeoutS_disposed (s : ConnState) : (clearTimeoutS s).disposed = s.disposed := rfl

theorem clearTimeoutS_eventArmed (s : ConnState) :
    (clearTimeoutS s).eventArmed = s.eventArmed := rfl

theorem clearTimeoutS_fired (s : ConnState) : (clearTimeoutS s).fired = s.fired := rfl

theorem clearTimeoutS_buffers (s : ConnState) : (clearTimeoutS s).buffers = s.buffers := rfl

theorem clearTimeoutS_timeout (s : ConnState) : (clearTimeoutS s).timeout = none := rfl

theorem disposeS_of_disposed {s : ConnState} (h : s.disposed = true) : disposeS s = s := by
  unfold disposeS
  rw [if_pos h]

theorem disposeS_disposed (s : ConnState) : (disposeS s).disposed = true := by
  unfold disposeS
  dsimp only
  split_ifs with h1 h2
  · exact h1
  · rfl
  · rfl

theorem sendCycleS_of_disposed {s : ConnState} (h : s.disposed = true) :
    sendCycleS s = (false, s) := by
  unfold sendCycleS
  rw [if_pos (by simp [h])]

theorem establishS_snd_of_disposed {s : ConnState} (p k : Bool) (h : s.disposed = true) :
    (establishS s p k).2 = s := by
  unfold establishS
  split_ifs
  · rfl
  · rfl
  · rw [sendCycleS_of_disposed h]
  · rfl

theorem disposeInv_of_eq {s t : ConnState} (h : DisposeInv s) (h1 : t.disposed = s.disposed)
    (h2 : t.eventArmed = s.eventArmed) (h3 : t.fired = s.fired) : DisposeInv t := by
  unfold DisposeInv at *
  rw [h1, h2, h3]
  exact h

theorem disposeInv_dispose {s : ConnState} (h : DisposeInv s) : DisposeInv (disposeS s) := by
  obtain ⟨ha, hb, hc⟩ := h
  unfold disposeS
  dsimp only
  split_ifs with h1 h2
  · exact ⟨ha, hb, hc⟩
  · have harm : s.eventArmed = true := by simpa [clearTimeoutS_eventArmed] using h2
    refine ⟨fun hd => ?_, fun hd => ?_, ?_⟩
    · simp [clearTimeoutS_disposed] at hd
    · simp at hd
    · simp [clearTimeoutS_fired, hb harm]
  · refine ⟨fun hd => ?_, fun hd => ?_, ?_⟩
    · simp [clearTimeoutS_disposed] at hd
    · exact absurd hd h2
    · simpa [clearTimeoutS_fired] using hc

theorem timerInv_of_eq {s t : ConnState} (h : TimerInv s)
    (h1 : t.pendingTimers = s.pendingTimers) (h2 : t.timeout = s.timeout) : TimerInv t := by
  unfold TimerInv at *
  rw [h1, h2]
  exact h

theorem clearTimeoutS_timerInv {s : ConnState} (h : TimerInv s) : TimerInv (clearTimeoutS s) := by
  unfold TimerInv at *
  unfold clearTimeoutS
  cases htm : s.timeout with
  | none => simpa using (by rw [htm] at h; simpa using h)
  | some a =>
    rw [htm] at h
    simp only [Option.toList] at h
    simp [h, List.erase_cons_head]

theorem disposeS_timerInv {s : ConnState} (h : TimerInv s) : TimerInv (disposeS s) := by
  unfold disposeS
  dsimp only
  split_ifs with h1 h2
  · exact h
  · have : TimerInv (clearTimeoutS
        { s with disposed := true, inboundP := false, outboundP := false,
                 remoteP := false, buffers := none, resolverP := false }) :=
      clearTimeoutS_timerInv (timerInv_of_eq h rfl rfl)
    exact timerInv_of_eq this rfl rfl
  · exact clearTimeoutS_timerInv (timerInv_of_eq h rfl rfl)

theorem sendCycleS_timerInv {s : ConnState} (h : TimerInv s) : TimerInv (sendCycleS s).2 := by
  unfold sendCycleS
  dsimp only
  split_ifs with h1 h2
  · exact h
  · exact h
  · have hclear := clearTimeoutS_timerInv h
    unfold TimerInv at *
    simp [hclear, clearTimeoutS_timeout]

theorem sendCycleS_proj (s : ConnState) :
    (sendCycleS s).2.disposed = s.disposed ∧ (sendCycleS s).2.eventArmed = s.eventArmed
    ∧ (sendCycleS s).2.fired = s.fired ∧ (sendCycleS s).2.buffers = s.buffers := by
  unfold sendCycleS
  dsimp only
  split_ifs <;> exact ⟨rfl, rfl, rfl, rfl⟩

theorem establishS_proj (s : ConnState) (p k : Bool) :
    (establishS s p k).2.disposed = s.disposed ∧ (establishS s p k).2.eventArmed = s.eventArmed
    ∧ (establishS s p k).2.fired = s.fired ∧ (establishS s p k).2.buffers = s.buffers := by
  unfold establishS
  split_ifs
  · exact ⟨rfl, rfl, rfl, rfl⟩
  · exact ⟨rfl, rfl, rfl, rfl⟩
  · exact sendCycleS_proj s
  · exact ⟨rfl, rfl, rfl, rfl⟩

theorem establishS_timerInv {s : ConnState} (p k : Bool) (h : TimerInv s) :
    TimerInv (establishS s p k).2 := by
  unfold establishS
  split_ifs
  · exact h
  · exact h
  · exact sendCycleS_timerInv h
  · exact h

theorem stepConn_disposeInv (s : ConnState) (op : ConnOp) (h : DisposeInv s) :
    DisposeInv (stepConn s op) := by
  cases op with
  | dispose => exact disposeInv_dispose h
  | close => exact disposeInv_dispose h
  | listen n p k so =>
    unfold stepConn listenS
    dsimp only
    split_ifs with h1 h2 h3 h4 h5
    · exact h
    · exact disposeInv_of_eq h (establishS_proj _ p k).1 (establishS_proj _ p k).2.1
        (establishS_proj _ p k).2.2.1
    · exact disposeInv_of_eq h rfl rfl rfl
    · exact disposeInv_of_eq h rfl rfl rfl
    · exact disposeInv_of_eq h rfl rfl rfl
    · exact disposeInv_of_eq h rfl rfl rfl
  | connectDone ok p k =>
    unfold stepConn connectDoneS
    dsimp only
    split_ifs with h1 h2 h3
    · exact disposeInv_of_eq h (establishS_proj _ p k).1 (establishS_proj _ p k).2.1
        (establishS_proj _ p k).2.2.1
    · exact disposeInv_dispose (disposeInv_of_eq h (establishS_proj _ p k).1
        (establishS_proj _ p k).2.1 (establishS_proj _ p k).2.2.1)
    · exact h
    · exact disposeInv_dispose h
  | resolvedDone so =>
    unfold stepConn resolvedDoneS
    dsimp only
    split_ifs
    · exact disposeInv_of_eq h rfl rfl rfl
    · exact h
  | sendCycle =>
    exact disposeInv_of_eq h (sendCycleS_proj s).1 (sendCycleS_proj s).2.1
      (sendCycleS_proj s).2.2.1
  | timerFire ok =>
    unfold stepConn timerFireS
    dsimp only
    cases htm : s.timeout with
    | none => exact h
    | some a =>
      dsimp only
      split_ifs
      · exact disposeInv_of_eq h rfl rfl rfl
      · exact disposeInv_dispose (disposeInv_of_eq h rfl rfl rfl)
      · exact h
  | timerWriteDone ok =>
    unfold stepConn timerWriteDoneS
    dsimp only
    split_ifs
    · exact disposeInv_of_eq h (sendCycleS_proj s).1 (sendCycleS_proj s).2.1
        (sendCycleS_proj s).2.2.1
    · exact disposeInv_dispose (disposeInv_of_eq h (sendCycleS_proj s).1
        (sendCycleS_proj s).2.1 (sendCycleS_proj s).2.2.1)
    · exact disposeInv_dispose h
  | kaReadDeliver len =>
    unfold stepConn kaReadDeliverS
    dsimp only
    split_ifs
    · exact disposeInv_dispose h
    · exact h
  | pumpDeliver ok =>
    unfold stepConn pumpDeliverS
    dsimp only
    split_ifs
    · exact h
    · exact disposeInv_dispose h

theorem stepConn_timerInv (s : ConnState) (op : ConnOp) (h : TimerInv s) :
    TimerInv (stepConn s op) := by
  cases op with
  | dispose => exact disposeS_timerInv h
  | close => exact disposeS_timerInv h
  | listen n p k so =>
    unfold stepConn listenS
    dsimp only
    split_ifs with h1 h2 h3 h4 h5
    · exact h
    · exact establishS_timerInv p k h
    · exact h
    · exact h
    · exact h
    · exact h
  | connectDone ok p k =>
    unfold stepConn connectDoneS
    dsimp only
    split_ifs with h1 h2 h3
    · exact establishS_timerInv p k h
    · exact disposeS_timerInv (establishS_timerInv p k h)
    · exact h
    · exact disposeS_timerInv h
  | resolvedDone so =>
    unfold stepConn resolvedDoneS
    dsimp only
    split_ifs
    · exact h
    · exact h
  | sendCycle => exact sendCycleS_timerInv h
  | timerFire ok =>
    unfold stepConn timerFireS
    dsimp only
    cases htm : s.timeout with
    | none => exact h
    | some a =>
      dsimp only
      split_ifs
      · unfold TimerInv
        rfl
      · exact disposeS_timerInv (by unfold TimerInv; rfl)
      · exact h
  | timerWriteDone ok =>
    unfold stepConn timerWriteDoneS
    dsimp only
    split_ifs
    · exact sendCycleS_timerInv h
    · exact disposeS_timerInv (sendCycleS_timerInv h)
    · exact disposeS_timerInv h
  | kaReadDeliver len =>
    unfold stepConn kaReadDeliverS
    dsimp only
    split_ifs
    · exact disposeS_timerInv h
    · exact h
  | pumpDeliver ok =>
    unfold stepConn pumpDeliverS
    dsimp only
    split_ifs
    · exact h
    · exact disposeS_timerInv h

theorem stepConn_disposed_mono (s : ConnState) (op : ConnOp) (h : s.disposed = true) :
    (stepConn s op).disposed = true := by
  cases op with
  | dispose =>
    unfold stepConn
    rw [disposeS_of_disposed h]
    exact h
  | close =>
    unfold stepConn closeS
    rw [disposeS_of_disposed h]
    exact h
  | listen n p k so =>
    unfold stepConn listenS
    dsimp only
    rw [if_pos (by simp [h])]
    exact h
  | connectDone ok p k =>
    unfold stepConn connectDoneS
    dsimp only
    split_ifs with h1 h2 h3
    · exact ((establishS_proj _ p k).1).trans h
    · exact disposeS_disposed _
    · exact h
    · exact disposeS_disposed _
  | resolvedDone so =>
    unfold stepConn resolvedDoneS
    dsimp only
    split_ifs
    · exact h
    · exact h
  | sendCycle =>
    exact ((sendCycleS_proj s).1).trans h
  | timerFire ok =>
    unfold stepConn timerFireS
    dsimp only
    cases htm : s.timeout with
    | none => exact h
    | some a =>
      dsimp only
      split_ifs
      · exact h
      · exact disposeS_disposed _
      · exact h
  | timerWriteDone ok =>
    unfold stepConn timerWriteDoneS
    dsimp only
    split_ifs
    · exact ((sendCycleS_proj s).1).trans h
    · exact disposeS_disposed _
    · exact disposeS_disposed _
  | kaReadDeliver len =>
    unfold stepConn kaReadDeliverS
    dsimp only
    split_ifs
    · exact disposeS_disposed _
    · exact h
  | pumpDeliver ok =>
    unfold stepConn pumpDeliverS
    dsimp only
    split_ifs
    · exact h
    · exact disposeS_disposed _

theorem runConn_disposeInv (ops : List ConnOp) : ∀ s : ConnState, DisposeInv s →
    DisposeInv (runConn s ops) := by
  induction ops with
  | nil => intro s h; exact h
  | cons op ops ih =>
    intro s h
    exact ih (stepConn s op) (stepConn_disposeInv s op h)

theorem runConn_timerInv (ops : List ConnOp) : ∀ s : ConnState, TimerInv s →
    TimerInv (runConn s ops) := by
  induction ops with
  | nil => intro s h; exact h
  | cons op ops ih =>
    intro s h
    exact ih (stepConn s op) (stepConn_timerInv s op h)

theorem disposeTransitions_of_disposed (ops : List ConnOp) : ∀ s : ConnState,
    s.disposed = true → disposeTransitions s ops = 0 := by
  induction ops with
  | nil => intro s _; rfl
  | cons op ops ih =>
    intro s h
    unfold disposeTransitions
    rw [if_neg (by simp [h]), ih (stepConn s op) (stepConn_disposed_mono s op h)]

theorem disposeTransitions_le_one (ops : List ConnOp) : ∀ s : ConnState,
    disposeTransitions s ops ≤ 1 := by
  induction ops with
  | nil => intro s; exact Nat.zero_le 1
  | cons op ops ih =>
    intro s
    unfold disposeTransitions
    by_cases h2 : (stepConn s op).disposed = true
    · rw [disposeTransitions_of_disposed ops (stepConn s op) h2]
      split_ifs <;> omega
    · rw [if_neg (by rintro ⟨-, hc⟩; exact h2 hc)]
      have := ih (stepConn s op)
      omega

/-- C7: along every sequence of public calls (`Close`, `Dispose`,
`Listen`) and I/O completion callbacks, starting from a freshly
constructed connection, the disposal work happens at most once: the
`DisposedEvent` fires at most once, the `disposed` latch transitions
from false to true at most once, and `Dispose` and `Close` are
idempotent on every state. -/
theorem dispose_at_most_once (configPresent : Bool) (alignment : Int)
    (domain keepAlived inboundP outboundP eventArmed : Bool) (ops : List ConnOp) :
    (runConn (mkConn configPresent alignment domain keepAlived inboundP outboundP eventArmed)
        ops).fired ≤ 1
    ∧ disposeTransitions
        (mkConn configPresent alignment domain keepAlived inboundP outboundP eventArmed) ops ≤ 1
    ∧ ∀ t : ConnState, disposeS (disposeS t) = disposeS t ∧ closeS (closeS t) = closeS t := by
  refine ⟨?_, disposeTransitions_le_one ops _, fun t => ?_⟩
  · have hinv : DisposeInv
        (mkConn configPresent alignment domain keepAlived inboundP outboundP eventArmed) :=
      ⟨fun _ => rfl, fun _ => rfl, Nat.zero_le 1⟩
    exact (runConn_disposeInv ops _ hinv).2.2
  · have hidem : disposeS (disposeS t) = disposeS t :=
      disposeS_of_disposed (disposeS_disposed t)
    exact ⟨hidem, hidem⟩

/-- C9: along every sequence of public calls and completion callbacks
from a freshly constructed connection, the scheduler queue holds the
handle recorded in `timeout_` and nothing else, so at most one
keep-alive timer is pending at any instant: `KeepAlivedSendCycle`
clears the previous handle before scheduling (Connection.cpp:503-505),
the fired callback clears its own handle (Connection.cpp:509-511), and
`Dispose` clears any pending handle (Connection.cpp:218). -/
theorem keepalive_single_pending_timer (configPresent : Bool) (alignment : Int)
    (domain keepAlived inboundP outboundP eventArmed : Bool) (ops : List ConnOp) :
    TimerInv (runConn (mkConn configPresent alignment domain keepAlived inboundP outboundP
        eventArmed) ops)
    ∧ (runConn (mkConn configPresent alignment domain keepAlived inboundP outboundP eventArmed)
        ops).pendingTimers.length ≤ 1 := by
  have hinv : TimerInv
      (mkConn configPresent alignment domain keepAlived inboundP outboundP eventArmed) := rfl
  have hrun := runConn_timerInv ops _ hinv
  refine ⟨hrun, ?_⟩
  unfold TimerInv at hrun
  rw [hrun]
  cases (runConn (mkConn configPresent alignment domain keepAlived inboundP outboundP
      eventArmed) ops).timeout <;> simp [Option.toList]

theorem listenS_buffers (s : ConnState) (network pumpsOk kaReadOk socketOk : Bool)
    (hd : s.disposed = false) (hb : s.buffers = none) :
    (listenS s network pumpsOk kaReadOk socketOk).2.buffers = some s.mss := by
  unfold listenS
  dsimp only
  rw [if_neg (by simp [hd, hb])]
  split_ifs with h2 h3 h4 h5
  · exact (establishS_proj _ pumpsOk kaReadOk).2.2.2
  · rfl
  · rfl
  · rfl
  · rfl

/-- C6 counterexample: `alignment = 510` lies outside `[512, 65535]`,
yet the constructor overrides MSS with it (the clamp threshold in the
source is `UINT8_MAX << 1 = 510`), so MSS does not stay at its default. -/
theorem mss_override_at_510_counterexample :
    connectionCtorMSS true 510 = 510 ∧ (510 : Nat) ≠ 65535 := by
  refine ⟨by decide, by decide⟩

/-- C6 (amended): the buffer region has size MSS with default 65535
(default modelled from the spec; `Connection.h` is not in src/), and
`configuration.alignment` overrides MSS exactly when
`510 ≤ alignment ≤ 65535` (the source threshold is `UINT8_MAX << 1 =
510`, not 512); outside that window, or without a configuration, MSS
keeps its default, and `Listen` allocates exactly MSS bytes. -/
theorem mss_clamp_and_listen_alloc (alignment : Int) (s : ConnState)
    (network pumpsOk kaReadOk socketOk : Bool) :
    (510 ≤ alignment ∧ alignment ≤ 65535 → connectionCtorMSS true alignment = alignment.toNat)
    ∧ (¬(510 ≤ alignment ∧ alignment ≤ 65535) → connectionCtorMSS true alignment = 65535)
    ∧ connectionCtorMSS false alignment = 65535
    ∧ (s.disposed = false → s.buffers = none →
        (listenS s network pumpsOk kaReadOk socketOk).2.buffers = some s.mss) := by
  refine ⟨?_, ?_, rfl, fun hd hb => listenS_buffers s network pumpsOk kaReadOk socketOk hd hb⟩
  · intro h
    unfold connectionCtorMSS ECONNECTION_MSS_default
    rw [if_pos rfl, if_pos (by exact_mod_cast h)]
  · intro h
    unfold connectionCtorMSS ECONNECTION_MSS_default
    rw [if_pos rfl, if_neg (by exact_mod_cast h)]

/-- Witness for C6 (amended) at alignment 1024 and a fresh connection. -/
theorem mss_clamp_and_listen_alloc_witness :
    (510 ≤ (1024 : Int) ∧ (1024 : Int) ≤ 65535 →
        connectionCtorMSS true 1024 = (1024 : Int).toNat)
    ∧ (¬(510 ≤ (1024 : Int) ∧ (1024 : Int) ≤ 65535) → connectionCtorMSS true 1024 = 65535)
    ∧ connectionCtorMSS false 1024 = 65535
    ∧ ((mkConn true 1024 false false true true true).disposed = false →
        (mkConn true 1024 false false true true true).buffers = none →
        (listenS (mkConn true 1024 false false true true true) false true true true).2.buffers
          = some (mkConn true 1024 false false true true true).mss) :=
  mss_clamp_and_listen_alloc 1024 (mkConn true 1024 false false true true true)
    false true true true

theorem sendCycleS_remoteP (s : ConnState) : (sendCycleS s).2.remoteP = s.remoteP := by
  unfold sendCycleS
  dsimp only
  split_ifs <;> rfl

theorem establishS_remoteP (s : ConnState) (p k : Bool) :
    (establishS s p k).2.remoteP = s.remoteP := by
  unfold establishS
  split_ifs
  · rfl
  · rfl
  · exact sendCycleS_remoteP s
  · rfl

theorem listenS_network_eq (s : ConnState) (pumpsOk kaReadOk socketOk : Bool)
    (hd : s.disposed = false) (hb : s.buffers = none) :
    listenS s true pumpsOk kaReadOk socketOk
      = ((establishS { s with buffers := some s.mss, remoteP := true } pumpsOk kaReadOk).1,
         { (establishS { s with buffers := some s.mss, remoteP := true } pumpsOk kaReadOk).2 with
             available :=
               (establishS { s with buffers := some s.mss, remoteP := true } pumpsOk kaReadOk).1 }) := by
  unfold listenS
  dsimp only
  rw [if_neg (by simp [hd, hb]), if_pos rfl]

/-- C8 counterexample: calling `Listen` (no network argument) on a fresh
connection whose inbound transport is missing makes the `IsNone` guard
fail, and `Listen` returns false — but the buffer has already been
allocated (Connection.cpp:29 precedes the guard at line 37), so the
state is not left unchanged as the claim requires. -/
theorem listen_allocates_before_guard_counterexample :
    (listenS (mkConn true 600 false false false true true) false true true true).1 = false
    ∧ (mkConn true 600 false false false true true).buffers = none
    ∧ (listenS (mkConn true 600 false false false true true) false true true true).2.buffers
        = some 600 := by
  refine ⟨by decide, by decide, by decide⟩

/-- C8 (amended): on the early guard (`disposed_ || buffers_`) `Listen`
returns false with no side effect at all; on the `IsNone` / remote /
missing-context guard it returns false and leaves `resolver`, `remote`,
the `disposed` latch and the event counter unchanged, but the buffer
has already been freshly allocated (`buffers = some MSS` rather than
unchanged). -/
theorem listen_failure_effects (s : ConnState) (n pumpsOk kaReadOk socketOk : Bool) :
    (s.disposed = true ∨ s.buffers.isSome = true →
        listenS s n pumpsOk kaReadOk socketOk = (false, s))
    ∧ (s.disposed = false → s.buffers = none →
        (IsNoneS s || s.remoteP || !(hasContext s)) = true →
        (listenS s false pumpsOk kaReadOk socketOk).1 = false
        ∧ (listenS s false pumpsOk kaReadOk socketOk).2.resolverP = s.resolverP
        ∧ (listenS s false pumpsOk kaReadOk socketOk).2.remoteP = s.remoteP
        ∧ (listenS s false pumpsOk kaReadOk socketOk).2.disposed = false
        ∧ (listenS s false pumpsOk kaReadOk socketOk).2.fired = s.fired
        ∧ (listenS s false pumpsOk kaReadOk socketOk).2.buffers = some s.mss) := by
  constructor
  · intro h
    unfold listenS
    rw [if_pos (by rcases h with h | h <;> simp [h])]
  · intro hd hb hg
    unfold listenS
    dsimp only
    rw [if_neg (by simp [hd, hb]), if_neg (by simp)]
    split_ifs with h h2 h3
    · exact ⟨rfl, rfl, rfl, hd, rfl, rfl⟩
    · exact absurd hg h
    · exact absurd hg h
    · exact absurd hg h

/-- Witness for C8 (amended): early guard on an already-disposed
connection, and the IsNone guard on a fresh connection lacking its
inbound transport. -/
theorem listen_failure_effects_witness :
    listenS (disposeS (mkConn true 600 false false true true true)) false true true true
      = (false, disposeS (mkConn true 600 false false true true true))
    ∧ ((listenS (mkConn true 600 false false false true true) false true true true).1 = false
        ∧ (listenS (mkConn true 600 false false false true true) false true true true).2.resolverP
          = (mkConn true 600 false false false true true).resolverP
        ∧ (listenS (mkConn true 600 false false false true true) false true true true).2.remoteP
          = (mkConn true 600 false false false true true).remoteP
        ∧ (listenS (mkConn true 600 false false false true true) false true true true).2.disposed
          = false
        ∧ (listenS (mkConn true 600 false false false true true) false true true true).2.fired
          = (mkConn true 600 false false false true true).fired
        ∧ (listenS (mkConn true 600 false false false true true) false true true true).2.buffers
          = some (mkConn true 600 false false false true true).mss) :=
  ⟨(listen_failure_effects (disposeS (mkConn true 600 false false true true true))
      false true true true).1 (by decide),
   (listen_failure_effects (mkConn true 600 false false false true true)
      false true true true).2 (by decide) (by decide) (by decide)⟩

/-- C10: when `Listen` is called with a non-null network socket and the
subsequent arming fails — `EstablishRemoteSocket` returns false for any
of its failure modes: pump arming failure, or (with `keepAlived`) the
keep-alive read-drain or send-cycle arming failures of
Connection.cpp:68-69 — `Listen` returns false but no disposal happens
on this path: the `disposed` latch stays false, the adopted remote
socket and the freshly allocated buffer remain set, the
`DisposedEvent` count is unchanged and the handler stays armed — no
`Close` occurs. -/
theorem listen_network_arm_failure_no_dispose (s : ConnState) (pumpsOk kaReadOk socketOk : Bool)
    (hd : s.disposed = false) (hb : s.buffers = none)
    (hfail : (establishS { s with buffers := some s.mss, remoteP := true } pumpsOk kaReadOk).1
      = false) :
    (listenS s true pumpsOk kaReadOk socketOk).1 = false
    ∧ (listenS s true pumpsOk kaReadOk socketOk).2.disposed = false
    ∧ (listenS s true pumpsOk kaReadOk socketOk).2.remoteP = true
    ∧ (listenS s true pumpsOk kaReadOk socketOk).2.buffers = some s.mss
    ∧ (listenS s true pumpsOk kaReadOk socketOk).2.fired = s.fired
    ∧ (listenS s true pumpsOk kaReadOk socketOk).2.eventArmed = s.eventArmed := by
  rw [listenS_network_eq s pumpsOk kaReadOk socketOk hd hb]
  refine ⟨hfail, ?_, ?_, ?_, ?_, ?_⟩
  · exact ((establishS_proj _ pumpsOk kaReadOk).1).trans hd
  · exact establishS_remoteP _ pumpsOk kaReadOk
  · exact (establishS_proj _ pumpsOk kaReadOk).2.2.2
  · exact (establishS_proj _ pumpsOk kaReadOk).2.2.1
  · exact (establishS_proj _ pumpsOk kaReadOk).2.1

/-- Witness for C10 on a fresh keep-alive-enabled connection whose
pumps arm fine but whose keep-alive read drain fails to arm
(`pumpsOk = true`, `kaReadOk = false`). -/
theorem listen_network_arm_failure_no_dispose_witness :
    (listenS (mkConn true 1024 false true true true true) true true false true).1 = false
    ∧ (listenS (mkConn true 1024 false true true true true) true true false true).2.disposed
      = false
    ∧ (listenS (mkConn true 1024 false true true true true) true true false true).2.remoteP
      = true
    ∧ (listenS (mkConn true 1024 false true true true true) true true false true).2.buffers
      = some (mkConn true 1024 false true true true true).mss
    ∧ (listenS (mkConn true 1024 false true true true true) true true false true).2.fired
      = (mkConn true 1024 false true true true true).fired
    ∧ (listenS (mkConn true 1024 false true true true true) true true false true).2.eventArmed
      = (mkConn true 1024 false true true true true).eventArmed :=
  listen_network_arm_failure_no_dispose (mkConn true 1024 false true true true true)
    true false true (by decide) (by decide) (by decide)
